import Mathlib

/-!
Shallow embedding of the `render` HTTP helper library (Go) and proofs about
its specification.  Go `int` values are modelled as `Int` (the claims never
approach 64-bit overflow; `strconv.Atoi` rejects overflowing inputs).
Go's truncated integer division/remainder are `Int.tdiv` / `Int.tmod`; a Go
runtime panic (integer division by zero) is modelled by `Option`-valued
results, `none` standing for the panic.
-/

namespace Render

/-! ### Content-type classifier (contenttype.go) -/

/-- MIME string constants from `contenttype.go`. -/
def TextPlain : String := "text/plain"

def TextHTML : String := "text/html"

def ApplicationXHTML : String := "application/xhtml+xml"

def ApplicationJSON : String := "application/json"

def ApplicationJSONExt : String := "application/json; charset=utf-8"

def ApplicationXML : String := "application/xml"

def TextXML : String := "text/xml"

def TextJavascript : String := "text/javascript"

def ApplicationFormURL : String := "application/x-www-form-urlencoded"

def TextEventStream : String := "text/event-stream"

/-- Character-level splitter behind `strings.Split` (non-empty separator):
accumulate the current field, starting a new one at each separator. -/
def goSplitAux (sep : Char) : List Char → List Char → List (List Char)
  | [], acc => [acc.reverse]
  | c :: cs, acc =>
      if c = sep then acc.reverse :: goSplitAux sep cs []
      else goSplitAux sep cs (c :: acc)

/-- `strings.Split(s, sep)` for a one-character separator (the only form the
source uses: `";"` and `","`). -/
def goSplit (s : String) (sep : Char) : List String :=
  (goSplitAux sep s.data []).map fun cs => { data := cs }

/-- `strings.TrimSpace`: drop leading and trailing whitespace. -/
def goTrim (s : String) : String :=
  { data := ((s.data.dropWhile Char.isWhitespace).reverse.dropWhile
      Char.isWhitespace).reverse }

/-- Closed enumeration of content types handled by the package. -/
inductive ContentType where
  | unknown
  | plainText
  | html
  | json
  | xml
  | form
  | eventStream
deriving DecidableEq, Repr

/-- Package default content type (`DefaultContentType = ContentTypeJSON`). -/
def DefaultContentType : ContentType := ContentType.json

/-- `GetContentType`: strip parameters after the first `;`, trim whitespace,
match against the fixed table. -/
def GetContentType (s : String) : ContentType :=
  let s := goTrim ((goSplit s ';').headD "")
  if s = TextPlain then ContentType.plainText
  else if s = TextHTML ∨ s = ApplicationXHTML then ContentType.html
  else if s = ApplicationJSON ∨ s = TextJavascript then ContentType.json
  else if s = TextXML ∨ s = ApplicationXML then ContentType.xml
  else if s = ApplicationFormURL then ContentType.form
  else if s = TextEventStream then ContentType.eventStream
  else ContentType.unknown

/-- `GetAcceptedContentType`: take the first comma-separated field of the
`Accept` header, classify it, and substitute the default when unknown.
(`strings.Split` always returns at least one field, so the `len(fields) > 0`
guard in the source is always taken.) -/
def GetAcceptedContentType (accept : String) : ContentType :=
  let fields := goSplit accept ','
  let contentType := GetContentType (goTrim (fields.headD ""))
  if contentType = ContentType.unknown then DefaultContentType else contentType

/-- `GetRequestContentType`: classify the request's `Content-Type` header. -/
def GetRequestContentType (contentTypeHeader : String) : ContentType :=
  GetContentType contentTypeHeader

/-! ### `strconv.Atoi` -/

/-- Accumulate decimal digits; `none` when a non-digit occurs (Atoi's syntax
error). Overflow is not modelled: no claim involves 19-digit numerals. -/
def parseDigitsAux : List Char → Nat → Option Nat
  | [], acc => some acc
  | c :: cs, acc =>
      if c.isDigit then parseDigitsAux cs (acc * 10 + (c.toNat - 48)) else none

/-- A non-empty run of decimal digits, as a number. -/
def parseDigits : List Char → Option Nat
  | [] => none
  | cs => parseDigitsAux cs 0

/-- `strconv.Atoi`: optional sign followed by at least one digit; every other
input is an error (`none`). -/
def goAtoi (s : String) : Option Int :=
  match s.toList with
  | [] => none
  | '+' :: rest => (parseDigits rest).map fun n => (n : Int)
  | '-' :: rest => (parseDigits rest).map fun n => -(n : Int)
  | l => (parseDigits l).map fun n => (n : Int)

/-! ### `url.Values` and `url.URL`

`url.Values` is `map[string][]string`; `Encode` serializes it with the keys
sorted.  The map is modelled as an association list that `valuesSet` keeps
sorted by key, so `valuesEncode` is plain concatenation.  Percent-escaping is
not modelled: every key and value appearing in the claims consists of
unreserved characters, on which `url.QueryEscape` is the identity. -/

/-- Association-list model of `url.Values` (unique keys, kept sorted). -/
abbrev ValuesMap := List (String × List String)

/-- `Values.Get`: first value of the key, or `""` when absent. -/
def valuesGet (k : String) : ValuesMap → String
  | [] => ""
  | (k', vs) :: rest => if k = k' then vs.headD "" else valuesGet k rest

/-- Byte-wise (code-point-wise) string order used by `Encode`'s key sort. -/
def charListLt : List Char → List Char → Bool
  | [], [] => false
  | [], _ :: _ => true
  | _ :: _, [] => false
  | a :: as, b :: bs =>
      if a.toNat < b.toNat then true
      else if b.toNat < a.toNat then false
      else charListLt as bs

/-- String order on the underlying characters. -/
def strLt (a b : String) : Bool :=
  charListLt a.data b.data

/-- `Values.Set`: replace the key's values with the single given value
(inserting in key-sorted position, mirroring `Encode`'s sort). -/
def valuesSet (k v : String) : ValuesMap → ValuesMap
  | [] => [(k, [v])]
  | (k', vs) :: rest =>
      if k = k' then (k, [v]) :: rest
      else if strLt k k' then (k, [v]) :: (k', vs) :: rest
      else (k', vs) :: valuesSet k v rest

/-- `Values.Encode`: `k=v` pairs joined by `&` (keys already sorted here). -/
def valuesEncode (vs : ValuesMap) : String :=
  String.intercalate "&" (vs.flatMap fun kv => kv.2.map fun v => kv.1 ++ "=" ++ v)

/-- Model of `url.URL`: the part serialized before the query (scheme, host and
path) plus the parsed query.  `RawQuery` is represented in parsed form; the
claims' initial URLs all carry canonically-encoded queries. -/
structure GoURL where
  base : String
  query : ValuesMap
deriving DecidableEq, Repr

/-- `URL.String`: base plus `?`-prefixed encoded query when non-empty. -/
def GoURL.toString (u : GoURL) : String :=
  if u.query.isEmpty then u.base else u.base ++ "?" ++ valuesEncode u.query

/-! ### `http.Header`

`http.Header` is `map[string][]string` with canonicalized keys; `Set`
replaces a key's values, `Add` appends one.  Keys are modelled verbatim
(canonicalization is a consistent renaming applied by `Set`, `Add` and `Get`
alike, so it is invisible to the claims). -/

/-- Association-list model of a response header map. -/
abbrev Headers := List (String × List String)

/-- `Header.Set`: replace the key's values with the single given value. -/
def headerSet (k v : String) : Headers → Headers
  | [] => [(k, [v])]
  | (k', vs) :: rest =>
      if k = k' then (k, [v]) :: rest else (k', vs) :: headerSet k v rest

/-- `Header.Add`: append one value to the key's values. -/
def headerAdd (k v : String) : Headers → Headers
  | [] => [(k, [v])]
  | (k', vs) :: rest =>
      if k = k' then (k', vs ++ [v]) :: rest else (k', vs) :: headerAdd k v rest

/-- `Header.Values`: all values stored for the key. -/
def headerValues (k : String) : Headers → List String
  | [] => []
  | (k', vs) :: rest => if k = k' then vs else headerValues k rest

/-- `Header.Get`: first value stored for the key, or `""`. -/
def headerGet (k : String) (h : Headers) : String :=
  (headerValues k h).headD ""

/-! ### util.go -/

/-- `totalPages` from `util.go`.  Go evaluates `total/size` and `total%size`
eagerly, so `size = 0` is a runtime panic (integer divide by zero), modelled
as `none`. -/
def totalPages (size total : Int) : Option Int :=
  if size = 0 then none
  else
    let quotient := total.tdiv size
    let remainder := total.tmod size
    if quotient = 0 then some 1
    else if remainder = 0 then some quotient
    else some (quotient + 1)

/-- `max` from `util.go`. -/
def goMax (x y : Int) : Int :=
  if x > y then x else y

/-- `min` from `util.go` (note the bespoke `y == 0` short-circuit). -/
def goMin (x y : Int) : Int :=
  if y = 0 then x
  else if x < y then x
  else y

/-! ### Pagination (pagination.go) -/

/-- Query parameter name for the current page (`PageParam`). -/
def PageParam : String := "page"

/-- Query parameter name for the page size (`PerPageParam`). -/
def PerPageParam : String := "per_page"

/-- Default number of items per page (`PerPageDefault`). -/
def PerPageDefault : Int := 25

/-- Header name constants from `pagination.go`. -/
def PageHeader : String := "x-page"

def PerPageHeader : String := "x-per-page"

def NextPageHeader : String := "x-next-page"

def PrevPageHeader : String := "x-prev-page"

def TotalItemsHeader : String := "x-total"

def TotalPagesHeader : String := "x-total-pages"

def LinkHeader : String := "Link"

/-- `Linkf` format: `<url>; rel="relname"`. -/
def Linkf (u rel : String) : String :=
  "<" ++ u ++ ">; rel=\"" ++ rel ++ "\""

/-- `Pagination` value.  `url` is a `*url.URL` in Go: the pointee is shared,
so URL-building methods below return the (possibly mutated) pagination as
well as their string result. -/
structure Pagination where
  url : Option GoURL
  page : Int
  perPage : Int
  last : Int
  total : Int
deriving DecidableEq, Repr

/-- Functional options (`PaginationOption`); currently only `WithPerPage`. -/
inductive PaginationOption where
  | withPerPage (val : Int)
deriving DecidableEq, Repr

/-- `WithPerPage`: overwrite `perPage`, then recompute `last` via
`totalPages` (which panics when the new value is `0`). -/
def applyOption (p : Pagination) : PaginationOption → Option Pagination
  | .withPerPage val =>
      (totalPages val p.total).map fun l => { p with perPage := val, last := l }

/-- `NewPagination`: parse `page`/`per_page` (defaulting to `1` and
`PerPageDefault` on Atoi error), compute `last = totalPages(perPage, total)`
— a panic when `perPage = 0` — then apply the functional options. -/
def NewPagination (u : GoURL) (totalItems : Int)
    (options : List PaginationOption) : Option Pagination :=
  let strPage := valuesGet PageParam u.query
  let strPerPage := valuesGet PerPageParam u.query
  let page := (goAtoi strPage).getD 1
  let perPage := (goAtoi strPerPage).getD PerPageDefault
  (totalPages perPage totalItems).bind fun last =>
    let pagination : Pagination :=
      { url := some u, page := page, perPage := perPage
        last := last, total := totalItems }
    options.foldlM applyOption pagination

/-- `Pagination.Prev`. -/
def Pagination.Prev (p : Pagination) : Int :=
  goMax (p.page - 1) 1

/-- `Pagination.Next`. -/
def Pagination.Next (p : Pagination) : Int :=
  goMin (p.page + 1) p.last

/-- `Pagination.NextURL`.  `params := p.url.Query()` is a fresh map, but the
assignment `p.url.RawQuery = params.Encode()` writes back through the shared
pointer: the second component is the pagination with its captured URL after
the call. -/
def Pagination.NextURL (p : Pagination) : String × Pagination :=
  match p.url with
  | none => ("", p)
  | some u =>
      let params := valuesSet PerPageParam (toString p.perPage)
        (valuesSet PageParam (toString p.page) u.query)
      if p.page ≠ p.last then
        let params := valuesSet PageParam (toString p.Next) params
        let u' : GoURL := { u with query := params }
        (u'.toString, { p with url := some u' })
      else ("", p)

/-- `Pagination.PrevURL` (same write-back through the shared pointer). -/
def Pagination.PrevURL (p : Pagination) : String × Pagination :=
  match p.url with
  | none => ("", p)
  | some u =>
      let params := valuesSet PerPageParam (toString p.perPage)
        (valuesSet PageParam (toString p.page) u.query)
      if p.page > 1 then
        let params := valuesSet PageParam (toString p.Prev) params
        let u' : GoURL := { u with query := params }
        (u'.toString, { p with url := some u' })
      else ("", p)

/-- `Pagination.LastURL` (always writes back when a URL was captured). -/
def Pagination.LastURL (p : Pagination) : String × Pagination :=
  match p.url with
  | none => ("", p)
  | some u =>
      let params := valuesSet PerPageParam (toString p.perPage)
        (valuesSet PageParam (toString p.page) u.query)
      let params := valuesSet PageParam (toString p.last) params
      let u' : GoURL := { u with query := params }
      (u'.toString, { p with url := some u' })

/-- `Pagination.shouldRedirect`. -/
def Pagination.shouldRedirect (p : Pagination) : Bool :=
  if p.page = 0 then true
  else if p.page > p.last then true
  else if p.perPage = 0 then true
  else false

/-- `Pagination.redirect`: clone the request URL (`uri := *r.URL`), correct
`page` and `perPage`, overwrite the two query parameters and serialize.  The
result is the `Location` of the 301 response. -/
def Pagination.redirectLocation (p : Pagination) (r : GoURL) : String :=
  let last := p.last
  let page := p.page
  let perPage := p.perPage
  let page := if page = 0 then 1 else page
  let page := if page > last then last else page
  let perPage := if perPage = 0 then PerPageDefault else perPage
  let params := valuesSet PerPageParam (toString perPage)
    (valuesSet PageParam (toString page) r.query)
  GoURL.toString { r with query := params }

/-- `DefaultPaginationHeader`, writing into the response header map.  The
`NextURL`/`PrevURL`/`LastURL` calls mutate the shared captured URL, so the
pagination is threaded through and returned alongside the headers. -/
def DefaultPaginationHeader (h : Headers) (p : Pagination) : Headers × Pagination :=
  let h := headerSet PageHeader (toString p.page) h
  let h := headerSet PerPageHeader (toString p.perPage) h
  let last := p.last
  let hp :=
    if p.page ≠ last then
      let h := headerSet NextPageHeader (toString p.Next) h
      let sp := p.NextURL
      (headerAdd LinkHeader (Linkf sp.1 "next") h, sp.2)
    else (h, p)
  let h := hp.1
  let p := hp.2
  let hp :=
    if p.page > 1 then
      let h := headerSet PrevPageHeader (toString p.Prev) h
      let sp := p.PrevURL
      (headerAdd LinkHeader (Linkf sp.1 "prev") h, sp.2)
    else (h, p)
  let h := hp.1
  let p := hp.2
  let h := headerSet TotalItemsHeader (toString p.total) h
  let h := headerSet TotalPagesHeader (toString last) h
  let sp := p.LastURL
  (headerAdd LinkHeader (Linkf sp.1 "last") h, sp.2)

/-- Observable outcome of `Pagination.Render`: either a redirect (status and
`Location`), or a rendered response carrying the pagination headers. -/
inductive PRenderResult where
  | redirect (status : Int) (location : String)
  | rendered (headers : Headers)
deriving DecidableEq, Repr

/-- `Pagination.Render`: redirect with 301 when `shouldRedirect`, otherwise
emit the pagination metadata (`PaginationInHeader` defaults to `true`, so
through `DefaultPaginationHeader` into a fresh header map) and delegate the
payload to `Render`/`Respond` — the delegated payload write is modelled
separately by `DefaultResponder` and is not observed here. -/
def Pagination.Render (p : Pagination) (r : GoURL) : PRenderResult :=
  if p.shouldRedirect then
    PRenderResult.redirect 301 (p.redirectLocation r)
  else
    PRenderResult.rendered (DefaultPaginationHeader [] p).1

/-! ### Renderer (render.go) -/

/-- `ContentTypeHeader` constant. -/
def ContentTypeHeader : String := "Content-Type"

/-- One element of the variadic `params ...interface{}` bag of `Blob`.
Pointer arguments are dereferenced before the type switch in the source;
dynamic types other than `int` and `string` fall through it with no effect
(`other`). -/
inductive RParam where
  | int (n : Int)
  | str (s : String)
  | other
deriving DecidableEq, Repr

/-- A written response: status code, header map, body bytes (as a string). -/
structure HTTPResponse where
  status : Int
  headers : Headers
  body : String
deriving DecidableEq, Repr

/-- Accumulator of `Blob`'s single pass over `params`:
`status, key, value := 0, "", ""` plus the header map being written. -/
structure BlobState where
  status : Int
  key : String
  value : String
  h : Headers
deriving DecidableEq, Repr

/-- One iteration of `Blob`'s `for _, param := range params` loop. -/
def blobStep (st : BlobState) : RParam → BlobState
  | .int arg =>
      if st.status = 0 ∧ arg ≠ 0 then { st with status := arg } else st
  | .str arg =>
      let st := if st.key = "" then { st with key := arg } else { st with value := arg }
      if st.key ≠ "" ∧ st.value ≠ "" then
        { st with h := headerSet st.key st.value st.h, key := "", value := "" }
      else st
  | .other => st

/-- `Blob`: set the default `Content-Type: application/octet-stream`, consume
the param bag, default the status to 200, write status then body. -/
def Blob (v : String) (params : List RParam) : HTTPResponse :=
  let h := headerSet ContentTypeHeader "application/octet-stream" []
  let st := params.foldl blobStep { status := 0, key := "", value := "", h := h }
  let status := if st.status = 0 then 200 else st.status
  { status := status, headers := st.h, body := v }

/-- `PlainText`: `Blob` with the `text/plain` content-type pair appended. -/
def PlainText (v : String) (args : List RParam) : HTTPResponse :=
  Blob v (args ++ [RParam.str ContentTypeHeader, RParam.str "text/plain; charset=utf-8"])

/-- Go kinds distinguished by the responder's reflection. -/
inductive GoKind where
  | chan
  | slice
  | string
  | struct
deriving DecidableEq, Repr

/-- Printed kind names (`reflect.Kind.String`), used in the panic message. -/
def goKindName : GoKind → String
  | .chan => "chan"
  | .slice => "slice"
  | .string => "string"
  | .struct => "struct"

/-- Runtime values passed down the responder.  A channel is modelled by the
(finite) list of items it yields before closing; the request context is
assumed not to be cancelled (the cancellation branches of `Stream` and
`channelIntoSlice` are time-dependent and outside every claim). -/
inductive RValue where
  | nilv
  | str (s : String)
  | chanOf (items : List Int)
  | sliceOf (items : List Int)
  | errorResponse (message : String)
deriving DecidableEq, Repr

/-- `v != nil` test on the interface value. -/
def isNil : RValue → Bool
  | .nilv => true
  | _ => false

/-- `reflect.TypeOf(v).Kind()` for the values above (`nilv` is only ever
inspected behind the `v != nil` guard). -/
def kindOf : RValue → GoKind
  | .nilv => .struct
  | .str _ => .string
  | .chanOf _ => .chan
  | .sliceOf _ => .slice
  | .errorResponse _ => .struct

/-- Serialization by the external `encoding/json` codec, abstracted to a
total function; no claim inspects the produced bytes (and the codec's
failure branch, an in-band 500, is likewise outside every claim). -/
def jsonEncode : RValue → String := fun _ => ""

/-- Whether the pattern is an initial run of the list (the step underlying
`bytes.Contains`). -/
def leadsWith : List Char → List Char → Bool
  | [], _ => true
  | _ :: _, [] => false
  | a :: as, b :: bs => (a == b) && leadsWith as bs

/-- `bytes.Contains(hay, needle)` at the character level: the needle occurs
as a contiguous run somewhere in the hay. -/
def containsSeq (needle : List Char) : List Char → Bool
  | [] => leadsWith needle []
  | c :: cs => leadsWith needle (c :: cs) || containsSeq needle cs

/-- `xml.Header`: the standard declaration the source writes when absent. -/
def xmlHeader : String := "<?xml version=\"1.0\" encoding=\"UTF-8\"?>\n"

/-- `xml.EscapeText`'s per-character table (`&`, `<`, `>`, quotes and the
three whitespace controls become entities; the invalid-rune replacement is
outside every claim's inputs). -/
def xmlEscapeChar (c : Char) : List Char :=
  if c = '&' then "&amp;".data
  else if c = '<' then "&lt;".data
  else if c = '>' then "&gt;".data
  else if c = '\'' then "&#39;".data
  else if c = '"' then "&#34;".data
  else if c = '\t' then "&#x9;".data
  else if c = '\n' then "&#xA;".data
  else if c = '\r' then "&#xD;".data
  else [c]

/-- Character-data escaping, as `xml.EscapeText` over the string. -/
def xmlEscape (s : String) : String :=
  { data := s.data.flatMap xmlEscapeChar }

/-- Serialization by the external `encoding/xml` codec.  For the
`ErrorResponse{Message: m}` payloads the error mapper renders, `xml.Marshal`
yields `<ErrorResponse><message>…escaped…</message></ErrorResponse>` and
emits no XML declaration of its own.  The remaining payload shapes never
reach `XML` in any claim (plain strings are even a marshal error, taken by
the in-band-500 branch) and are abstracted. -/
def xmlEncode : RValue → String
  | .errorResponse m =>
      { data := "<ErrorResponse><message>".data ++ (xmlEscape m).data ++
          "</message></ErrorResponse>".data }
  | _ => ""

/-- Proof-side scanner: no `'<'` immediately followed by `'?'` anywhere. -/
def noLtQm : List Char → Bool
  | a :: b :: rest => !(a == '<' && b == '?') && noLtQm (b :: rest)
  | _ => true

/-- `fmt.Sprintf("%s", v)` for non-string values; abstracted, as no claim
inspects the formatted text. -/
def fmtSprintf : RValue → String := fun _ => ""

/-- `JSON`: encode and funnel through `Blob` with the JSON content type. -/
def JSON (v : RValue) (args : List RParam) : HTTPResponse :=
  Blob (jsonEncode v)
    (args ++ [RParam.str ContentTypeHeader, RParam.str ApplicationJSONExt])

/-- `XML`: encode, look for `<?xml` in the first 100 bytes, and if absent
write the standard declaration to the response **before** calling `Blob`.
Per `net/http`, that first body write commits status 200, so `Blob`'s later
`WriteHeader` is superfluous and the wire status is 200 with the declaration
prepended to the body; the `headers` field records the writer's header map
(which `Blob` still mutates after the commit, without further effect on the
wire — no claim observes the headers of an XML response). -/
def XML (v : RValue) (args : List RParam) : HTTPResponse :=
  let b := xmlEncode v
  let resp := Blob b
    (args ++ [RParam.str ContentTypeHeader, RParam.str "application/xml; charset=utf-8"])
  if containsSeq "<?xml".data (b.data.take 100) then resp
  else { resp with status := 200, body := xmlHeader ++ resp.body }

/-- Outcome of the responder: a written response, or a Go `panic`. -/
inductive RespondResult where
  | response (resp : HTTPResponse)
  | panicked (msg : String)
deriving DecidableEq, Repr

/-- `Stream`: panics unless the value is a channel; otherwise writes the
event-stream headers and streams the items (the frame-writing loop and the
HTTP/1-only `Connection` header are not observed by any claim and are
summarized by the response value). -/
def Stream (v : RValue) : RespondResult :=
  if kindOf v ≠ GoKind.chan then
    RespondResult.panicked
      ("render: event stream expects a channel, not " ++ goKindName (kindOf v))
  else
    RespondResult.response
      { status := 200
        headers := headerSet "Cache-Control" "no-cache"
          (headerSet ContentTypeHeader "text/event-stream; charset=utf-8" [])
        body := "" }

/-- `channelIntoSlice` on the uncancelled path: buffer every item of the
channel into a slice. -/
def channelIntoSlice : RValue → RValue
  | .chanOf items => .sliceOf items
  | v => v

/-- `DefaultResponder`: drain non-nil channels into a slice, then dispatch on
the accepted content type.  `Form` and `HTML` fall through to the default
branch, which is JSON. -/
def DefaultResponder (accept : String) (v : RValue) (params : List RParam) :
    RespondResult :=
  let v := if !isNil v && kindOf v == GoKind.chan then channelIntoSlice v else v
  match GetAcceptedContentType accept with
  | .plainText | .unknown =>
      let s := match v with | .str s => s | w => fmtSprintf w
      RespondResult.response (PlainText s params)
  | .json => RespondResult.response (JSON v params)
  | .xml => RespondResult.response (XML v params)
  | .eventStream => Stream v
  | .form => RespondResult.response (JSON v params)
  | .html => RespondResult.response (JSON v params)

/-- Status of a responder outcome, `none` for a panic. -/
def responseStatus : RespondResult → Option Int
  | .response r => some r.status
  | .panicked _ => none

/-- Whether the responder panicked. -/
def isPanicked : RespondResult → Bool
  | .panicked _ => true
  | .response _ => false

/-! ### Error mapper (error.go) -/

/-- Error values as seen by `errors.Is` / `errors.As`:
`sentinel` is an `errors.New` value (identity modelled structurally; all
sentinels in play have distinct messages), `wrapf` is `fmt.Errorf` with a
`%w` verb (its `Unwrap` returns the wrapped error), and `http` is a
`*HTTPError{Err, Status}` — which defines `Error()` but **no** `Unwrap`
method, so the chain stops there. -/
inductive GoError where
  | sentinel (msg : String)
  | wrapf (msg : String) (inner : GoError)
  | http (status : Int) (inner : GoError)
deriving DecidableEq, Repr

/-- Sentinel errors from `error.go`. -/
def ErrInvalidToken : GoError := GoError.sentinel "invalid or missing token"

def ErrUnauthorized : GoError := GoError.sentinel "Unauthorized"

def ErrForbidden : GoError := GoError.sentinel "Forbidden"

def ErrNotFound : GoError := GoError.sentinel "not found"

/-- `ErrorMap`: sentinel → status.  (A Go map; iteration order is
unspecified, so the fold below fixes declaration order — the proved claims
only involve errors matching at most one entry, where order is irrelevant.) -/
def ErrorMap : List (GoError × Int) :=
  [(ErrInvalidToken, 400), (ErrUnauthorized, 401),
   (ErrForbidden, 403), (ErrNotFound, 404)]

/-- `errors.Is`: equality with the target, else follow `Unwrap`.  Only
`wrapf` has an `Unwrap` method; `sentinel` and `http` end the chain. -/
def errorsIs : GoError → GoError → Bool
  | .wrapf m inner, target =>
      (GoError.wrapf m inner == target) || errorsIs inner target
  | e, target => e == target

/-- `errors.As(err, &httpError)` with target type `*HTTPError`: walk the
chain (again only `wrapf` unwraps) for an `http` node, yielding its status
and inner error. -/
def errorsAsHTTP : GoError → Option (Int × GoError)
  | .http s inner => some (s, inner)
  | .wrapf _ inner => errorsAsHTTP inner
  | .sentinel _ => none

/-- `err.Error()`: a sentinel's message; `fmt.Errorf`'s formatted message;
`HTTPError.Error()` returns `h.Err.Error()`. -/
def goErrorMessage : GoError → String
  | .sentinel m => m
  | .wrapf m _ => m
  | .http _ inner => goErrorMessage inner

/-- The status/error pair computed by `Error` (error.go lines 97–113) before
delegation: start at 500, let every matching `ErrorMap` entry overwrite the
status, then let a typed `*HTTPError` in the chain override both status and
presented error. -/
def errorStatusAndErr (err : GoError) : Int × GoError :=
  let status := ErrorMap.foldl
    (fun st kv => if errorsIs err kv.1 then kv.2 else st) 500
  match errorsAsHTTP err with
  | some si => (si.1, si.2)
  | none => (status, err)

/-- `TreatError` default (`DefaultErrorRespond`): wrap the message in an
`ErrorResponse{Message: err.Error()}` value. -/
def TreatError (err : GoError) : RValue :=
  RValue.errorResponse (goErrorMessage err)

/-- `Error`: compute status and presented error, then
`Respond(w, r, TreatError(r, err), append(params, status)...)`. -/
def Error (accept : String) (err : GoError) (params : List RParam) :
    RespondResult :=
  let se := errorStatusAndErr err
  DefaultResponder accept (TreatError se.2) (params ++ [RParam.int se.1])

/-! ### Decoder (decoder.go) -/

/-- A request body as a byte stream: total size and read position. -/
structure Body where
  size : Nat
  pos : Nat
deriving DecidableEq, Repr

/-- Behaviour of the underlying codec on this input: how many bytes its
decoder consumes before stopping, and whether it reports an error. -/
structure CodecBehavior where
  consumed : Nat
  fails : Bool
deriving DecidableEq, Repr

/-- `io.Copy(io.Discard, r)`: read the stream to end-of-input. -/
def ioCopyDiscard (b : Body) : Body :=
  { b with pos := b.size }

/-- The codec error reported, if any. -/
def codecError (beh : CodecBehavior) (what : String) : Option String :=
  if beh.fails then some (what ++ " decode error") else none

/-- `DecodeJSON`: the JSON decoder consumes a prefix, then the deferred
`io.Copy(io.Discard, r)` drains the rest — on success and failure alike. -/
def DecodeJSON (beh : CodecBehavior) (b : Body) : Option String × Body :=
  let b := { b with pos := min b.size (b.pos + beh.consumed) }
  (codecError beh "json", ioCopyDiscard b)

/-- `DecodeXML`: same shape as `DecodeJSON`. -/
def DecodeXML (beh : CodecBehavior) (b : Body) : Option String × Body :=
  let b := { b with pos := min b.size (b.pos + beh.consumed) }
  (codecError beh "xml", ioCopyDiscard b)

/-- Modelled from the spec: the form codec (`github.com/ajg/form`, not part
of this repository) reads the entire body before parsing, so `DecodeForm` —
which has no explicit drain — still leaves the reader at end-of-input
("Each structured decode fully drains the request body afterward regardless
of outcome"). -/
def formDecoderDecode (beh : CodecBehavior) (b : Body) : Option String × Body :=
  (codecError beh "form", { b with pos := b.size })

/-- `DecodeForm`: delegate to the form codec. -/
def DecodeForm (beh : CodecBehavior) (b : Body) : Option String × Body :=
  formDecoderDecode beh b

/-- The sentinel `ErrUnableToParseContentType`. -/
def ErrUnableToParseContentType : String :=
  "render: unable to automatically decode the request content type"

/-- `DefaultDecoder`: dispatch on the request's `Content-Type`.  PlainText,
EventStream and HTML are no-ops; Unknown (and the unreachable default) fail
with the sentinel. -/
def DefaultDecoder (contentTypeHeader : String) (beh : CodecBehavior)
    (b : Body) : Option String × Body :=
  match GetRequestContentType contentTypeHeader with
  | .json => DecodeJSON beh b
  | .xml => DecodeXML beh b
  | .form => DecodeForm beh b
  | .plainText => (none, b)
  | .eventStream => (none, b)
  | .html => (none, b)
  | .unknown => (some ErrUnableToParseContentType, b)

/-! ### Statement-side definitions used by the claims -/

/-- The URL captured in the examples below. -/
def urlLocalUsers : GoURL :=
  { base := "http://localhost/users"
    query := [("page", ["1"]), ("per_page", ["20"])] }

/-- The pagination `NewPagination` builds from `urlLocalUsers` and 100 items. -/
def pagLocalUsers : Pagination :=
  { url := some urlLocalUsers, page := 1, perPage := 20, last := 5, total := 100 }

/-- The query-overwrite every URL accessor performs on the captured URL:
`Set(page, page)`, `Set(per_page, perPage)`, then `Set(page, target)`. -/
def overwrittenURL (u : GoURL) (page perPage target : Int) : GoURL :=
  { base := u.base
    query := valuesSet PageParam (toString target)
      (valuesSet PerPageParam (toString perPage)
        (valuesSet PageParam (toString page) u.query)) }

/-- The first non-zero integer of a param bag. -/
def firstNonZeroInt : List RParam → Option Int
  | [] => none
  | RParam.int n :: rest => if n ≠ 0 then some n else firstNonZeroInt rest
  | RParam.str _ :: rest => firstNonZeroInt rest
  | RParam.other :: rest => firstNonZeroInt rest

/-- The strings of a param bag, in order. -/
def stringParams : List RParam → List String
  | [] => []
  | RParam.str s :: rest => s :: stringParams rest
  | RParam.int _ :: rest => stringParams rest
  | RParam.other :: rest => stringParams rest

/-- Reference pairing: consume strings two at a time, applying each pair as a
header `Set`. -/
def applyPairs (h : Headers) : List String → Headers
  | a :: b :: rest => applyPairs (headerSet a b h) rest
  | _ => h

/-- Pairing with a pending first-of-pair string carried in. -/
def applyPairsFrom (key : String) (h : Headers) : List String → Headers
  | [] => h
  | b :: rest =>
      if key = "" then applyPairs h (b :: rest)
      else applyPairs (headerSet key b h) rest

/-- The header names of the completed pairs. -/
def pairKeys : List String → List String
  | a :: _ :: rest => a :: pairKeys rest
  | _ => []

/-- Whether a pagination render outcome is a redirect. -/
def isRedirect : PRenderResult → Bool
  | .redirect _ _ => true
  | .rendered _ => false

/-- The claim's concrete scenario: `GET /users?page=5&per_page=20`, 60 items. -/
def urlUsers60 : GoURL :=
  { base := "/users", query := [("page", ["5"]), ("per_page", ["20"])] }

/-- The pagination built from `urlUsers60` (last = 3). -/
def pagUsers60 : Pagination :=
  { url := some urlUsers60, page := 5, perPage := 20, last := 3, total := 60 }

/-- C1 counterexample input: `GET /users?per_page=-25`, 60 items. -/
def urlUsersNeg : GoURL :=
  { base := "/users", query := [("per_page", ["-25"])] }

/-- The pagination built from `urlUsersNeg`: `totalPages(-25, 60)` is
`(60 tdiv -25) + 1 = -1`, so `last = -1`. -/
def pagUsersNeg : Pagination :=
  { url := some urlUsersNeg, page := 1, perPage := -25, last := -1, total := 60 }

/-- The headers `DefaultPaginationHeader` writes into a fresh response. -/
def paginationHeaders (p : Pagination) : Headers :=
  (DefaultPaginationHeader [] p).1

/-! ### Helper lemmas about the header and query maps -/

theorem headerValues_set_self (k v : String) (h : Headers) :
    headerValues k (headerSet k v h) = [v] := by
  induction h with
  | nil => simp [headerSet, headerValues]
  | cons kv rest ih =>
      obtain ⟨k', vs⟩ := kv
      by_cases hk : k = k' <;> simp [headerSet, headerValues, hk, ih]

theorem headerValues_set_ne (k k' v : String) (h : Headers) (hne : k ≠ k') :
    headerValues k (headerSet k' v h) = headerValues k h := by
  induction h with
  | nil => simp [headerSet, headerValues, hne]
  | cons kv rest ih =>
      obtain ⟨k'', vs⟩ := kv
      by_cases hk : k' = k''
      · subst hk
        simp [headerSet, headerValues, hne]
      · by_cases hkk : k = k'' <;> simp [headerSet, headerValues, hk, hkk, ih]

theorem headerValues_add_self (k v : String) (h : Headers) :
    headerValues k (headerAdd k v h) = headerValues k h ++ [v] := by
  induction h with
  | nil => simp [headerAdd, headerValues]
  | cons kv rest ih =>
      obtain ⟨k', vs⟩ := kv
      by_cases hk : k = k' <;> simp [headerAdd, headerValues, hk, ih]

theorem headerValues_add_ne (k k' v : String) (h : Headers) (hne : k ≠ k') :
    headerValues k (headerAdd k' v h) = headerValues k h := by
  induction h with
  | nil => simp [headerAdd, headerValues, hne]
  | cons kv rest ih =>
      obtain ⟨k'', vs⟩ := kv
      by_cases hk : k' = k''
      · subst hk
        simp [headerAdd, headerValues, hne]
      · by_cases hkk : k = k'' <;> simp [headerAdd, headerValues, hk, hkk, ih]

theorem valuesGet_set_ne (k k' v : String) (q : ValuesMap) (hne : k ≠ k') :
    valuesGet k (valuesSet k' v q) = valuesGet k q := by
  induction q with
  | nil => simp [valuesSet, valuesGet, hne]
  | cons kv rest ih =>
      obtain ⟨k'', vs⟩ := kv
      by_cases hk : k' = k''
      · subst hk
        simp [valuesSet, valuesGet, hne]
      · by_cases hlt : strLt k' k''
        · by_cases hkk : k = k''
          · subst hkk
            simp [valuesSet, valuesGet, if_neg hk, hlt, hne]
          · simp [valuesSet, valuesGet, hk, hlt, hkk, hne]
        · by_cases hkk : k = k'' <;> simp [valuesSet, valuesGet, hk, hlt, hkk, ih]

/-! ### C2 — perPage 0 at construction time -/

/-- C2: constructing a `Pagination` from a URL whose `per_page` parses to `0`
does **not** defer the zero to the redirect check: `NewPagination` eagerly
calls `totalPages(perPage, totalItems)`, whose `total/size` divides by zero
(`none` models the Go runtime panic).  The second conjunct evaluates the
offending division itself. -/
theorem newPagination_per_page_zero_divides_by_zero :
    NewPagination { base := "/users", query := [("per_page", ["0"])] } 10 [] = none ∧
    totalPages 0 10 = none := by decide

/-! ### C7 — HTTPError and chain-aware matching -/

/-- C7 counterexample: chain-aware equality between
`HTTPError{Err: ErrNotFound, Status: 409}` and the sentinel `ErrNotFound`
fails, because `HTTPError` defines no `Unwrap` method. -/
theorem httpError_is_sentinel_counterexample :
    errorsIs (GoError.http 409 ErrNotFound) ErrNotFound = false := by decide

/-- C7 amended: `HTTPError` carries its underlying error so that
type-directed matching (`errors.As`) recovers status and inner error, but it
does **not** unwrap for identity matching: `errors.Is` between
`HTTPError{Err: e, Status: s}` and the sentinel `e` fails. -/
theorem httpError_matching (s : Int) (m : String) :
    errorsAsHTTP (GoError.http s (GoError.sentinel m)) =
      some (s, GoError.sentinel m) ∧
    errorsIs (GoError.http s (GoError.sentinel m)) (GoError.sentinel m) = false := by
  refine ⟨rfl, ?_⟩
  simp [errorsIs]

/-! ### C8 — structured decodes drain the body -/

/-- C8: whenever `DefaultDecoder` dispatches to a structured decoder (JSON,
XML or form), the request body is read to end-of-input afterwards — whatever
prefix the codec consumed and whether or not it failed. -/
theorem structured_decode_drains_body (ct : String) (beh : CodecBehavior)
    (b : Body)
    (h : GetRequestContentType ct = ContentType.json ∨
      GetRequestContentType ct = ContentType.xml ∨
      GetRequestContentType ct = ContentType.form) :
    (DefaultDecoder ct beh b).2.pos = (DefaultDecoder ct beh b).2.size ∧
    (DefaultDecoder ct beh b).2.size = b.size := by
  rcases h with h | h | h <;>
    simp [DefaultDecoder, h, DecodeJSON, DecodeXML, DecodeForm,
      formDecoderDecode, ioCopyDiscard]

/-- C8 witness: a failing JSON decode that consumed 3 of 10 bytes still
leaves the reader at end-of-input. -/
theorem structured_decode_drains_body_witness :
    (DefaultDecoder "application/json" { consumed := 3, fails := true }
      { size := 10, pos := 0 }).2.pos = 10 :=
  (structured_decode_drains_body "application/json"
      { consumed := 3, fails := true } { size := 10, pos := 0 }
      (Or.inl (by decide))).1.trans
    (structured_decode_drains_body "application/json"
      { consumed := 3, fails := true } { size := 10, pos := 0 }
      (Or.inl (by decide))).2


/-! ### C10 — event-stream dispatch of a channel panics -/

/-- C10: for a non-nil channel payload and an event-stream `Accept` header,
`DefaultResponder` first drains the channel into a slice, so the
`EventStream` branch hands `Stream` a slice and `Stream` panics. -/
theorem responder_eventstream_channel_panics (accept : String)
    (items : List Int) (params : List RParam)
    (h : GetAcceptedContentType accept = ContentType.eventStream) :
    DefaultResponder accept (RValue.chanOf items) params =
      RespondResult.panicked
        "render: event stream expects a channel, not slice" := by
  simp [DefaultResponder, isNil, kindOf, channelIntoSlice, h, Stream, goKindName]

/-- C10 witness: a literal `text/event-stream` accept header with a channel
payload panics. -/
theorem responder_eventstream_channel_panics_witness :
    DefaultResponder "text/event-stream" (RValue.chanOf []) [] =
      RespondResult.panicked
        "render: event stream expects a channel, not slice" :=
  responder_eventstream_channel_panics "text/event-stream" [] [] (by decide)

/-! ### C5 — URL accessors operate in place, not on a clone -/

/-- C5 counterexample: `NextURL` does not operate on a clone — after the
call, the captured source URL's query string has been overwritten (here to
`page=2&per_page=20`). -/
theorem nexturl_mutates_captured_url_counterexample :
    NewPagination urlLocalUsers 100 [] = some pagLocalUsers ∧
    pagLocalUsers.NextURL.2.url ≠ some urlLocalUsers ∧
    pagLocalUsers.NextURL.2.url =
      some { base := "http://localhost/users"
             query := [("page", ["2"]), ("per_page", ["20"])] } := by decide

/-- C5 amended: with no captured URL the three accessors return the empty
string (and touch nothing); `NextURL` at `page = last` and `PrevURL` at
`page ≤ 1` return the empty string leaving the captured URL unchanged; and
whenever an accessor returns a non-empty URL it has overwritten the `page`
and `per_page` parameters of the captured source URL **in place** (same
base, query updated), returning the serialization of that mutated URL. -/
theorem pagination_url_accessors (p : Pagination) :
    (p.url = none →
      p.NextURL = ("", p) ∧ p.PrevURL = ("", p) ∧ p.LastURL = ("", p)) ∧
    (p.page = p.last → p.NextURL = ("", p)) ∧
    (¬ 1 < p.page → p.PrevURL = ("", p)) ∧
    (∀ u, p.url = some u → p.page ≠ p.last →
      p.NextURL = ((overwrittenURL u p.page p.perPage p.Next).toString,
        { p with url := some (overwrittenURL u p.page p.perPage p.Next) })) ∧
    (∀ u, p.url = some u → 1 < p.page →
      p.PrevURL = ((overwrittenURL u p.page p.perPage p.Prev).toString,
        { p with url := some (overwrittenURL u p.page p.perPage p.Prev) })) ∧
    (∀ u, p.url = some u →
      p.LastURL = ((overwrittenURL u p.page p.perPage p.last).toString,
        { p with url := some (overwrittenURL u p.page p.perPage p.last) })) := by
  refine ⟨?_, ?_, ?_, ?_, ?_, ?_⟩
  · intro hu
    simp [Pagination.NextURL, Pagination.PrevURL, Pagination.LastURL, hu]
  · intro hp
    cases hu : p.url with
    | none => simp [Pagination.NextURL, hu]
    | some u => simp [Pagination.NextURL, hu, hp]
  · intro hp
    cases hu : p.url with
    | none => simp [Pagination.PrevURL, hu]
    | some u => simp [Pagination.PrevURL, hu, hp]
  · intro u hu hne
    simp [Pagination.NextURL, hu, hne, overwrittenURL]
  · intro u hu hlt
    simp [Pagination.PrevURL, hu, hlt, overwrittenURL]
  · intro u hu
    simp [Pagination.LastURL, hu, overwrittenURL]

/-- C5 witness: the empty-result cases at concrete paginations. -/
theorem pagination_url_accessors_witness :
    Pagination.NextURL { url := none, page := 1, perPage := 20, last := 5, total := 100 } =
      ("", { url := none, page := 1, perPage := 20, last := 5, total := 100 }) ∧
    Pagination.NextURL { url := some urlLocalUsers, page := 5, perPage := 20, last := 5, total := 100 } =
      ("", { url := some urlLocalUsers, page := 5, perPage := 20, last := 5, total := 100 }) ∧
    Pagination.PrevURL pagLocalUsers = ("", pagLocalUsers) :=
  ⟨(pagination_url_accessors _).1 rfl |>.1,
   (pagination_url_accessors _).2.1 (by decide),
   (pagination_url_accessors _).2.2.1 (by decide)⟩

/-! ### C3 — derived pagination values -/

/-- Reference ceiling of `t / s` over `ℕ` (`s ≥ 1`), as `(t + s - 1) / s`. -/
theorem totalPages_nat (t s : Nat) (hs : 1 ≤ s) :
    totalPages (s : Int) (t : Int) = some (max 1 (((t + s - 1) / s : Nat) : Int)) := by
  have hs0 : ((s : Int) ≠ 0) := by exact_mod_cast Nat.one_le_iff_ne_zero.mp hs
  have htdiv : (t : Int).tdiv (s : Int) = ((t / s : Nat) : Int) := rfl
  have htmod : (t : Int).tmod (s : Int) = ((t % s : Nat) : Int) := rfl
  unfold totalPages
  rw [if_neg hs0]
  simp only [htdiv, htmod]
  by_cases hq : t / s = 0
  · rw [if_pos (by exact_mod_cast hq)]
    have ht : t < s := by
      by_contra hc
      push_neg at hc
      exact absurd (Nat.div_pos hc (by omega)) (by omega)
    have hd : (t + s - 1) / s < 2 :=
      (Nat.div_lt_iff_lt_mul (by omega)).mpr (by omega)
    have hmax : max 1 (((t + s - 1) / s : Nat) : Int) = 1 :=
      max_eq_left (by exact_mod_cast Nat.lt_succ_iff.mp hd)
    rw [hmax]
  · rw [if_neg (by exact_mod_cast hq)]
    by_cases hr : t % s = 0
    · rw [if_pos (by exact_mod_cast hr)]
      have hdvd : s * (t / s) = t := Nat.mul_div_cancel' (Nat.dvd_of_mod_eq_zero hr)
      have hq1 : 1 ≤ t / s := Nat.one_le_iff_ne_zero.mpr hq
      have hceil : (t + s - 1) / s = t / s := by
        have h4 : t + s - 1 = (s - 1) + s * (t / s) := by omega
        rw [h4, Nat.add_mul_div_left _ _ (by omega : 0 < s),
          Nat.div_eq_of_lt (by omega : s - 1 < s), Nat.zero_add]
      rw [hceil]
      have hmax : max 1 ((t / s : Nat) : Int) = ((t / s : Nat) : Int) :=
        max_eq_right (by exact_mod_cast hq1)
      rw [hmax]
    · rw [if_neg (by exact_mod_cast hr)]
      have hrs : t % s < s := Nat.mod_lt t (by omega)
      have hr1 : 1 ≤ t % s := by omega
      have ht : s * (t / s) + t % s = t := Nat.div_add_mod t s
      have hceil : (t + s - 1) / s = t / s + 1 := by
        have h5 : t + s - 1 = (t % s - 1) + s * (t / s + 1) := by
          rw [Nat.mul_succ]
          omega
        rw [h5, Nat.add_mul_div_left _ _ (by omega : 0 < s),
          Nat.div_eq_of_lt (by omega : t % s - 1 < s), Nat.zero_add]
      rw [hceil]
      have hmax : max 1 ((t / s + 1 : Nat) : Int) = ((t / s + 1 : Nat) : Int) :=
        max_eq_right (by exact_mod_cast Nat.le_add_left 1 (t / s))
      rw [hmax]
      push_cast
      ring_nf

/-- C3: `last = totalPages(perPage, total)` is the ceiling of
`total/perPage` with minimum 1 for every `total ≥ 0`, `perPage ≥ 1`
(witnessed at the spec's examples 100/25 → 4 and 0/25 → 1), and on every
state with `last ≥ 1` the accessors compute `Next = min(page+1, last)` and
`Prev = max(page-1, 1)`. -/
theorem derived_pagination_values :
    (∀ total perPage : Int, 0 ≤ total → 1 ≤ perPage →
      totalPages perPage total =
        some (max 1 ((total + perPage - 1).tdiv perPage))) ∧
    totalPages 25 100 = some 4 ∧ totalPages 25 0 = some 1 ∧
    (∀ p : Pagination, 1 ≤ p.last →
      p.Next = min (p.page + 1) p.last ∧ p.Prev = max (p.page - 1) 1) := by
  refine ⟨?_, by decide, by decide, ?_⟩
  · intro total perPage h0 h1
    lift total to ℕ using h0 with t
    lift perPage to ℕ using (by omega : (0 : Int) ≤ perPage) with s
    have hs : 1 ≤ s := by exact_mod_cast h1
    have hcast : (t : Int) + (s : Int) - 1 = ((t + s - 1 : Nat) : Int) := by omega
    rw [hcast]
    have htd : ((t + s - 1 : Nat) : Int).tdiv (s : Int) =
        (((t + s - 1) / s : Nat) : Int) := rfl
    rw [htd]
    exact totalPages_nat t s hs
  · intro p hlast
    constructor
    · unfold Pagination.Next goMin
      rw [if_neg (by omega : p.last ≠ 0)]
      rcases lt_or_le (p.page + 1) p.last with h | h
      · rw [if_pos h]
        exact (min_eq_left h.le).symm
      · rw [if_neg (not_lt.mpr h)]
        exact (min_eq_right h).symm
    · unfold Pagination.Prev goMax
      rcases lt_or_le 1 (p.page - 1) with h | h
      · rw [if_pos h]
        exact (max_eq_left h.le).symm
      · rw [if_neg (not_lt.mpr h)]
        exact (max_eq_right h).symm

/-- C3 witness: the general parts applied at `total = 100`, `perPage = 25`
and at the state `page = 1, last = 5`. -/
theorem derived_pagination_values_witness :
    totalPages 25 100 = some (max 1 (((100 : Int) + 25 - 1).tdiv 25)) ∧
    (Pagination.Next { url := none, page := 1, perPage := 20, last := 5, total := 100 } =
        min 2 5 ∧
      Pagination.Prev { url := none, page := 1, perPage := 20, last := 5, total := 100 } =
        max 0 1) :=
  ⟨derived_pagination_values.1 100 25 (by decide) (by decide),
   derived_pagination_values.2.2.2
     { url := none, page := 1, perPage := 20, last := 5, total := 100 } (by decide)⟩

/-! ### C9 — Blob's param consumption -/

theorem applyPairsFrom_empty_key (h : Headers) (ss : List String) :
    applyPairsFrom "" h ss = applyPairs h ss := by
  cases ss with
  | nil => rfl
  | cons b rest => simp [applyPairsFrom, applyPairs]

theorem blobStep_int (st : BlobState) (n : Int) :
    blobStep st (RParam.int n) =
      if st.status = 0 ∧ n ≠ 0 then { st with status := n } else st := rfl

theorem blobStep_other (st : BlobState) : blobStep st RParam.other = st := rfl

theorem blobStep_str_status (st : BlobState) (s : String) :
    (blobStep st (RParam.str s)).status = st.status := by
  unfold blobStep
  by_cases h1 : st.key = "" <;> simp only [h1, if_pos, if_neg, ite_true, ite_false] <;>
    split <;> rfl

theorem firstNonZeroInt_ne_zero (params : List RParam) (n : Int)
    (h : firstNonZeroInt params = some n) : n ≠ 0 := by
  induction params with
  | nil => simp [firstNonZeroInt] at h
  | cons p rest ih =>
      cases p with
      | int m =>
          by_cases hm : m ≠ 0
          · simp [firstNonZeroInt, hm] at h
            omega
          · simp [firstNonZeroInt, hm] at h
            exact ih h
      | str s => exact ih (by simpa [firstNonZeroInt] using h)
      | other => exact ih (by simpa [firstNonZeroInt] using h)

theorem firstNonZeroInt_append_some (params rest : List RParam) (n : Int)
    (h : firstNonZeroInt params = some n) :
    firstNonZeroInt (params ++ rest) = some n := by
  induction params with
  | nil => simp [firstNonZeroInt] at h
  | cons p ps ih =>
      cases p with
      | int m =>
          by_cases hm : m ≠ 0
          · simp_all [firstNonZeroInt, hm]
          · simp_all [firstNonZeroInt, hm]
      | str s => simp_all [firstNonZeroInt]
      | other => simp_all [firstNonZeroInt]

theorem firstNonZeroInt_append_none (params rest : List RParam)
    (h : firstNonZeroInt params = none) :
    firstNonZeroInt (params ++ rest) = firstNonZeroInt rest := by
  induction params with
  | nil => simp
  | cons p ps ih =>
      cases p with
      | int m =>
          by_cases hm : m ≠ 0
          · simp_all [firstNonZeroInt, hm]
          · simp_all [firstNonZeroInt, hm]
      | str s => simp_all [firstNonZeroInt]
      | other => simp_all [firstNonZeroInt]

theorem blobFold_status_ne (params : List RParam) :
    ∀ st : BlobState, st.status ≠ 0 →
      (params.foldl blobStep st).status = st.status := by
  induction params with
  | nil => intro st _; rfl
  | cons p rest ih =>
      intro st hst
      cases p with
      | int n =>
          rw [List.foldl_cons, blobStep_int, if_neg (by simp [hst])]
          exact ih st hst
      | str s =>
          rw [List.foldl_cons, ih _ (by rw [blobStep_str_status]; exact hst)]
          exact blobStep_str_status st s
      | other =>
          rw [List.foldl_cons, blobStep_other]
          exact ih st hst

theorem blobFold_status_zero (params : List RParam) :
    ∀ st : BlobState, st.status = 0 →
      (params.foldl blobStep st).status = (firstNonZeroInt params).getD 0 := by
  induction params with
  | nil => intro st hst; simpa [firstNonZeroInt] using hst
  | cons p rest ih =>
      intro st hst
      cases p with
      | int n =>
          by_cases hn : n ≠ 0
          · rw [List.foldl_cons, blobStep_int, if_pos ⟨hst, hn⟩]
            rw [blobFold_status_ne rest _ (by simpa using hn)]
            simp [firstNonZeroInt, hn]
          · rw [List.foldl_cons, blobStep_int, if_neg (by simp [hn])]
            rw [ih st hst]
            simp [firstNonZeroInt, hn]
      | str s =>
          rw [List.foldl_cons, ih _ (by rw [blobStep_str_status]; exact hst)]
          simp [firstNonZeroInt]
      | other =>
          rw [List.foldl_cons, blobStep_other, ih st hst]
          simp [firstNonZeroInt]

theorem blob_status (v : String) (params : List RParam) :
    (Blob v params).status = (firstNonZeroInt params).getD 200 := by
  unfold Blob
  dsimp only
  rw [blobFold_status_zero params _ rfl]
  cases h : firstNonZeroInt params with
  | none => simp
  | some n =>
      have := firstNonZeroInt_ne_zero params n h
      simp [this]

theorem applyPairs_eq_from (s : String) (hs : s ≠ "") (h : Headers)
    (ss : List String) : applyPairs h (s :: ss) = applyPairsFrom s h ss := by
  cases ss with
  | nil => simp [applyPairs, applyPairsFrom, hs]
  | cons b rest => simp [applyPairs, applyPairsFrom, hs]

theorem blobFold_headers (params : List RParam) :
    ∀ st : BlobState, st.value = "" →
      (∀ s ∈ stringParams params, s ≠ "") →
      (params.foldl blobStep st).h =
        applyPairsFrom st.key st.h (stringParams params) := by
  induction params with
  | nil =>
      intro st hv hs
      rfl
  | cons p rest ih =>
      intro st hv hs
      cases p with
      | int n =>
          rw [List.foldl_cons, blobStep_int]
          by_cases hc : st.status = 0 ∧ n ≠ 0
          · rw [if_pos hc]
            exact ih { st with status := n } hv (by simpa [stringParams] using hs)
          · rw [if_neg hc]
            exact ih st hv (by simpa [stringParams] using hs)
      | other =>
          rw [List.foldl_cons, blobStep_other]
          exact ih st hv (by simpa [stringParams] using hs)
      | str s =>
          have hs0 : s ≠ "" := hs s (by simp [stringParams])
          have hrest : ∀ x ∈ stringParams rest, x ≠ "" := fun x hx =>
            hs x (by simp [stringParams, hx])
          obtain ⟨stat, key, val, hh⟩ := st
          simp only at hv
          subst hv
          rw [List.foldl_cons]
          by_cases hk : key = ""
          · have hstep : blobStep ⟨stat, key, "", hh⟩ (RParam.str s) =
                ⟨stat, s, "", hh⟩ := by
              simp [blobStep, hk]
            rw [hstep, ih ⟨stat, s, "", hh⟩ rfl hrest]
            show applyPairsFrom s hh (stringParams rest) =
              applyPairsFrom key hh (stringParams (RParam.str s :: rest))
            rw [hk]
            show applyPairsFrom s hh (stringParams rest) =
              applyPairsFrom "" hh (s :: stringParams rest)
            rw [applyPairsFrom_empty_key, applyPairs_eq_from s hs0]
          · have hstep : blobStep ⟨stat, key, "", hh⟩ (RParam.str s) =
                ⟨stat, "", "", headerSet key s hh⟩ := by
              simp [blobStep, hk, hs0]
            rw [hstep, ih ⟨stat, "", "", headerSet key s hh⟩ rfl hrest]
            show applyPairsFrom "" (headerSet key s hh) (stringParams rest) =
              applyPairsFrom key hh (stringParams (RParam.str s :: rest))
            rw [applyPairsFrom_empty_key]
            show applyPairs (headerSet key s hh) (stringParams rest) =
              applyPairsFrom key hh (s :: stringParams rest)
            simp [applyPairsFrom, hk]

theorem headerGet_applyPairs (k : String) :
    ∀ (ss : List String) (h : Headers), k ∉ pairKeys ss →
      headerGet k (applyPairs h ss) = headerGet k h
  | [], _, _ => rfl
  | [a], _, _ => rfl
  | a :: b :: rest, h, hk => by
      have hmem : k ≠ a ∧ k ∉ pairKeys rest := by
        have heq : pairKeys (a :: b :: rest) = a :: pairKeys rest := rfl
        rw [heq] at hk
        simp only [List.mem_cons, not_or] at hk
        exact hk
      show headerGet k (applyPairs (headerSet a b h) rest) = headerGet k h
      rw [headerGet_applyPairs k rest (headerSet a b h) hmem.2]
      unfold headerGet
      rw [headerValues_set_ne k a b h hmem.1]

/-- C9: `Blob` consumes its param bag in one pass — the status is the first
non-zero integer (default 200, later integers ignored); the strings are
paired two-at-a-time into header `Set`s applied immediately (shown for
non-empty strings: an empty string never completes a pair in the source);
the default `application/octet-stream` content type survives unless
`Content-Type` itself is a pair's header name; and concretely
`Blob(w, v, 201, "X-Foo", "bar")` yields status 201 and `X-Foo: bar`. -/
theorem blob_param_consumption :
    (∀ (v : String) (params : List RParam),
      (Blob v params).status = (firstNonZeroInt params).getD 200) ∧
    (∀ (v : String) (params : List RParam),
      (∀ s ∈ stringParams params, s ≠ "") →
      (Blob v params).headers =
        applyPairs (headerSet ContentTypeHeader "application/octet-stream" [])
          (stringParams params)) ∧
    (∀ (v : String) (params : List RParam),
      (∀ s ∈ stringParams params, s ≠ "") →
      ContentTypeHeader ∉ pairKeys (stringParams params) →
      headerGet ContentTypeHeader (Blob v params).headers =
        "application/octet-stream") ∧
    (Blob "" [RParam.int 201, RParam.str "X-Foo", RParam.str "bar"] =
      { status := 201
        headers := [(ContentTypeHeader, ["application/octet-stream"]),
          ("X-Foo", ["bar"])]
        body := "" }) := by
  have hheaders : ∀ (v : String) (params : List RParam),
      (∀ s ∈ stringParams params, s ≠ "") →
      (Blob v params).headers =
        applyPairs (headerSet ContentTypeHeader "application/octet-stream" [])
          (stringParams params) := by
    intro v params hs
    unfold Blob
    dsimp only
    rw [blobFold_headers params _ rfl hs, applyPairsFrom_empty_key]
  refine ⟨blob_status, hheaders, ?_, by decide⟩
  intro v params hs hct
  rw [hheaders v params hs, headerGet_applyPairs _ _ _ hct]
  rfl

/-- C9 witness: the general conjuncts applied at the claim's concrete call. -/
theorem blob_param_consumption_witness :
    (Blob "" [RParam.int 201, RParam.str "X-Foo", RParam.str "bar"]).headers =
      applyPairs (headerSet ContentTypeHeader "application/octet-stream" [])
        (stringParams [RParam.int 201, RParam.str "X-Foo", RParam.str "bar"]) ∧
    headerGet ContentTypeHeader
      (Blob "" [RParam.int 201, RParam.str "X-Foo", RParam.str "bar"]).headers =
      "application/octet-stream" :=
  ⟨blob_param_consumption.2.1 "" _ (by decide),
   blob_param_consumption.2.2.1 "" _ (by decide) (by decide)⟩

/-! ### C6 — error-to-status resolution -/

theorem blob_status_append (v : String) (params rest : List RParam) (n : Int)
    (h : firstNonZeroInt params = some n) :
    (Blob v (params ++ rest)).status = n := by
  rw [blob_status, firstNonZeroInt_append_some _ _ _ h]
  rfl

theorem leadsWith_of_take :
    ∀ (p : List Char) (n : Nat) (l : List Char),
      leadsWith p (l.take n) = true → leadsWith p l = true
  | [], _, _, _ => rfl
  | a :: as, n, l, h => by
      cases l with
      | nil => simp [leadsWith] at h
      | cons c cs =>
          cases n with
          | zero => simp [leadsWith] at h
          | succ m =>
              simp only [List.take_succ_cons, leadsWith, Bool.and_eq_true] at h ⊢
              exact ⟨h.1, leadsWith_of_take as m cs h.2⟩

theorem containsSeq_of_take (p : List Char) :
    ∀ (n : Nat) (l : List Char),
      containsSeq p (l.take n) = true → containsSeq p l = true := by
  intro n l
  induction l generalizing n with
  | nil => simp [List.take_nil]
  | cons c cs ih =>
      intro h
      cases n with
      | zero =>
          cases p with
          | nil => simp [containsSeq, leadsWith]
          | cons a as => simp [containsSeq, leadsWith] at h
      | succ m =>
          simp only [List.take_succ_cons, containsSeq, Bool.or_eq_true] at h ⊢
          rcases h with h | h
          · exact Or.inl (leadsWith_of_take p (m + 1) (c :: cs)
              (by simpa [List.take_succ_cons] using h))
          · exact Or.inr (ih m h)

theorem noLtQm_no_pattern (rest : List Char) :
    ∀ l, noLtQm l = true → containsSeq ('<' :: '?' :: rest) l = false := by
  intro l
  induction l with
  | nil => intro _; rfl
  | cons c cs ih =>
      intro h
      cases cs with
      | nil => simp [containsSeq, leadsWith]
      | cons b cs' =>
          have h' : (¬c = '<' ∨ ¬b = '?') ∧ noLtQm (b :: cs') = true := by
            simpa [noLtQm] using h
          have h2 : containsSeq ('<' :: '?' :: rest) (b :: cs') = false := ih h'.2
          have h1 : leadsWith ('<' :: '?' :: rest) (c :: b :: cs') = false := by
            rcases h'.1 with hc | hb
            · simp [leadsWith, beq_iff_eq, Ne.symm hc]
            · simp [leadsWith, beq_iff_eq, Ne.symm hb]
          show (leadsWith ('<' :: '?' :: rest) (c :: b :: cs') ||
            containsSeq ('<' :: '?' :: rest) (b :: cs')) = false
          rw [h1, h2]
          rfl

theorem noLtQm_append_of :
    ∀ (xs ys : List Char), noLtQm xs = true → noLtQm ys = true →
      (∀ x y, xs.getLast? = some x → ys.head? = some y →
        (x == '<' && y == '?') = false) →
      noLtQm (xs ++ ys) = true
  | [], _, _, hys, _ => by simpa
  | [x], ys, _, hys, hb => by
      cases ys with
      | nil => rfl
      | cons y ys' =>
          have hp := hb x y (by simp) rfl
          simp only [List.cons_append, List.nil_append]
          show (!(x == '<' && y == '?') && noLtQm (y :: ys')) = true
          rw [hp, hys]
          rfl
  | x1 :: x2 :: xs', ys, hxs, hys, hb => by
      have hx : (¬x1 = '<' ∨ ¬x2 = '?') ∧ noLtQm (x2 :: xs') = true := by
        simpa [noLtQm] using hxs
      have hx1 : (x1 == '<' && x2 == '?') = false := by
        cases hb1 : (x1 == '<' && x2 == '?')
        · rfl
        · rcases (Bool.and_eq_true _ _).mp hb1 with ⟨ha1, ha2⟩
          rcases hx.1 with h | h
          · exact absurd (by simpa using ha1) h
          · exact absurd (by simpa using ha2) h
      have hrec := noLtQm_append_of (x2 :: xs') ys hx.2 hys (by
        intro x y hlast hhead
        exact hb x y (by rw [List.getLast?_cons_cons]; exact hlast) hhead)
      simp only [List.cons_append]
      show (!(x1 == '<' && x2 == '?') && noLtQm (x2 :: (xs' ++ ys))) = true
      rw [hx1]
      simpa using hrec

theorem noLtQm_of_no_lt : ∀ l : List Char, '<' ∉ l → noLtQm l = true
  | [], _ => rfl
  | [_], _ => rfl
  | a :: b :: rest, h => by
      have ha : ¬ a = '<' := fun hc =>
        h (by rw [← hc]; exact List.mem_cons_self a (b :: rest))
      have h' : '<' ∉ b :: rest := fun hm => h (List.mem_cons_of_mem a hm)
      have hrest := noLtQm_of_no_lt (b :: rest) h'
      have ha' : (a == '<') = false := by simpa using ha
      simp [noLtQm, ha', hrest]

theorem xmlEscapeChar_no_lt (c : Char) : '<' ∉ xmlEscapeChar c := by
  unfold xmlEscapeChar
  split_ifs with h1 h2 h3 h4 h5 h6 h7 h8
  · decide
  · decide
  · decide
  · decide
  · decide
  · decide
  · decide
  · decide
  · simp only [List.mem_singleton]
    exact fun h => h2 h.symm

theorem xmlEscape_no_lt (m : String) : '<' ∉ (xmlEscape m).data := by
  intro h
  have h' : '<' ∈ m.data.flatMap xmlEscapeChar := h
  rcases List.mem_flatMap.mp h' with ⟨c, _, hc⟩
  exact xmlEscapeChar_no_lt c hc

/-- `xml.Marshal` output for an `ErrorResponse` payload never contains
`<?xml` (so `XML`'s declaration check always fails and the early write
happens): the fixed tags follow `<` with `E`, `m` or `/`, and the escaped
message contains no `<` at all. -/
theorem xmlEncode_errorResponse_no_decl (m : String) :
    containsSeq "<?xml".data
      ((xmlEncode (RValue.errorResponse m)).data.take 100) = false := by
  have hdata : (xmlEncode (RValue.errorResponse m)).data =
      "<ErrorResponse><message>".data ++
        ((xmlEscape m).data ++ "</message></ErrorResponse>".data) := by
    simp [xmlEncode, List.append_assoc]
  have hinner : noLtQm ((xmlEscape m).data ++ "</message></ErrorResponse>".data)
      = true := by
    apply noLtQm_append_of
    · exact noLtQm_of_no_lt _ (xmlEscape_no_lt m)
    · decide
    · intro x y _ hy
      have hy' : y = '<' := by
        have hh : ("</message></ErrorResponse>".data).head? = some '<' := rfl
        rw [hh] at hy
        injection hy with hy
        exact hy.symm
      rw [hy']
      simp
  have houter : noLtQm ("<ErrorResponse><message>".data ++
      ((xmlEscape m).data ++ "</message></ErrorResponse>".data)) = true := by
    apply noLtQm_append_of
    · decide
    · exact hinner
    · intro x y hx _
      have hx' : x = '>' := by
        have hh : ("<ErrorResponse><message>".data).getLast? = some '>' := by decide
        rw [hh] at hx
        injection hx with hx
        exact hx.symm
      rw [hx']
      simp
  have hfull : containsSeq "<?xml".data
      ((xmlEncode (RValue.errorResponse m)).data) = false := by
    rw [hdata]
    have hpat : "<?xml".data = '<' :: '?' :: ['x', 'm', 'l'] := rfl
    rw [hpat]
    exact noLtQm_no_pattern ['x', 'm', 'l'] _ houter
  by_cases hct : containsSeq "<?xml".data
      ((xmlEncode (RValue.errorResponse m)).data.take 100) = true
  · have h2 := containsSeq_of_take "<?xml".data 100 _ hct
    rw [hfull] at h2
    exact absurd h2 (by decide)
  · exact Bool.eq_false_iff.mpr hct

/-- C6 counterexample: with `Accept: application/xml`, `Error` on a wrapped
`ErrNotFound` renders wire status 200, not the mapped 404 — `XML`'s
unconditional declaration prepend writes the body before `Blob` can set the
status, committing 200. -/
theorem error_xml_accept_counterexample :
    responseStatus (Error "application/xml"
      (GoError.wrapf "file demo.txt not found" ErrNotFound) []) = some 200 ∧
    (errorStatusAndErr (GoError.wrapf "file demo.txt not found" ErrNotFound)).1
      = 404 := by decide

/-- C6 amended: `Error` resolves the status as the claim describes — 500
default, the table's status under chain-aware matching when exactly one
sentinel matches (a `fmt`-wrapped `ErrNotFound` yields 404), a typed
`HTTPError` override presenting its inner error, and a caller-supplied
non-zero integer param overriding both — and the resolved status is the
rendered wire status for every accepted content type whose dispatch funnels
straight into `Blob`, i.e. everything except XML and event-stream.  With an
XML `Accept`, the declaration prepend's early body write always commits
wire status 200 (the marshaled `ErrorResponse` never contains `<?xml`); an
event-stream `Accept` panics instead of writing. -/
theorem error_status_resolution :
    (∀ err : GoError,
      (∀ kv ∈ ErrorMap, errorsIs err kv.1 = false) → errorsAsHTTP err = none →
      errorStatusAndErr err = (500, err)) ∧
    (∀ (err k : GoError) (s : Int), (k, s) ∈ ErrorMap → errorsIs err k = true →
      (∀ kv ∈ ErrorMap, errorsIs err kv.1 = true → kv = (k, s)) →
      errorsAsHTTP err = none →
      errorStatusAndErr err = (s, err)) ∧
    (∀ m, errorStatusAndErr (GoError.wrapf m ErrNotFound) =
      (404, GoError.wrapf m ErrNotFound)) ∧
    (∀ (err : GoError) (s : Int) (inner : GoError),
      errorsAsHTTP err = some (s, inner) →
      errorStatusAndErr err = (s, inner)) ∧
    (∀ (accept : String) (err : GoError) (params : List RParam) (n : Int),
      GetAcceptedContentType accept ≠ ContentType.eventStream →
      GetAcceptedContentType accept ≠ ContentType.xml →
      firstNonZeroInt params = some n →
      responseStatus (Error accept err params) = some n) ∧
    (∀ (accept : String) (err : GoError) (params : List RParam),
      GetAcceptedContentType accept ≠ ContentType.eventStream →
      GetAcceptedContentType accept ≠ ContentType.xml →
      firstNonZeroInt params = none → (errorStatusAndErr err).1 ≠ 0 →
      responseStatus (Error accept err params) = some (errorStatusAndErr err).1) ∧
    (∀ (accept : String) (err : GoError) (params : List RParam),
      GetAcceptedContentType accept = ContentType.xml →
      responseStatus (Error accept err params) = some 200) := by
  have hstruct : ∀ (accept : String) (v : RValue) (params : List RParam),
      GetAcceptedContentType accept ≠ ContentType.eventStream →
      GetAcceptedContentType accept ≠ ContentType.xml →
      kindOf v ≠ GoKind.chan →
      ∃ w args, DefaultResponder accept v params =
        RespondResult.response (Blob w (params ++ args)) := by
    intro accept v params hna hnx hkind
    unfold DefaultResponder
    have hguard : (!isNil v && kindOf v == GoKind.chan) = false := by
      cases v <;> simp_all [isNil, kindOf]
    rw [hguard]
    dsimp only
    cases hct : GetAcceptedContentType accept with
    | eventStream => exact absurd hct hna
    | xml => exact absurd hct hnx
    | plainText => exact ⟨_, _, rfl⟩
    | unknown => exact ⟨_, _, rfl⟩
    | json => exact ⟨_, _, rfl⟩
    | form => exact ⟨_, _, rfl⟩
    | html => exact ⟨_, _, rfl⟩
  refine ⟨?_, ?_, ?_, ?_, ?_, ?_, ?_⟩
  · intro err hmap has
    have h1 := hmap (ErrInvalidToken, 400) (by simp [ErrorMap])
    have h2 := hmap (ErrUnauthorized, 401) (by simp [ErrorMap])
    have h3 := hmap (ErrForbidden, 403) (by simp [ErrorMap])
    have h4 := hmap (ErrNotFound, 404) (by simp [ErrorMap])
    simp [errorStatusAndErr, ErrorMap, h1, h2, h3, h4, has]
  · intro err k s hmem his huniq has
    have hfalse : ∀ kv ∈ ErrorMap, kv ≠ (k, s) → errorsIs err kv.1 = false := by
      intro kv hkv hne
      cases hb : errorsIs err kv.1
      · rfl
      · exact absurd (huniq kv hkv hb) hne
    simp only [ErrorMap, List.mem_cons, List.not_mem_nil, or_false] at hmem
    rcases hmem with h | h | h | h <;> rw [Prod.ext_iff] at h <;>
        obtain ⟨hk, hs⟩ := h <;> subst hk <;> subst hs
    · have f2 := hfalse (ErrUnauthorized, 401) (by simp [ErrorMap]) (by decide)
      have f3 := hfalse (ErrForbidden, 403) (by simp [ErrorMap]) (by decide)
      have f4 := hfalse (ErrNotFound, 404) (by simp [ErrorMap]) (by decide)
      simp [errorStatusAndErr, ErrorMap, his, f2, f3, f4, has]
    · have f1 := hfalse (ErrInvalidToken, 400) (by simp [ErrorMap]) (by decide)
      have f3 := hfalse (ErrForbidden, 403) (by simp [ErrorMap]) (by decide)
      have f4 := hfalse (ErrNotFound, 404) (by simp [ErrorMap]) (by decide)
      simp [errorStatusAndErr, ErrorMap, his, f1, f3, f4, has]
    · have f1 := hfalse (ErrInvalidToken, 400) (by simp [ErrorMap]) (by decide)
      have f2 := hfalse (ErrUnauthorized, 401) (by simp [ErrorMap]) (by decide)
      have f4 := hfalse (ErrNotFound, 404) (by simp [ErrorMap]) (by decide)
      simp [errorStatusAndErr, ErrorMap, his, f1, f2, f4, has]
    · have f1 := hfalse (ErrInvalidToken, 400) (by simp [ErrorMap]) (by decide)
      have f2 := hfalse (ErrUnauthorized, 401) (by simp [ErrorMap]) (by decide)
      have f3 := hfalse (ErrForbidden, 403) (by simp [ErrorMap]) (by decide)
      simp [errorStatusAndErr, ErrorMap, his, f1, f2, f3, has]
  · intro m
    have h1 : errorsIs (GoError.wrapf m ErrNotFound) ErrInvalidToken = false := by
      simp [errorsIs, ErrNotFound, ErrInvalidToken]
    have h2 : errorsIs (GoError.wrapf m ErrNotFound) ErrUnauthorized = false := by
      simp [errorsIs, ErrNotFound, ErrUnauthorized]
    have h3 : errorsIs (GoError.wrapf m ErrNotFound) ErrForbidden = false := by
      simp [errorsIs, ErrNotFound, ErrForbidden]
    have h4 : errorsIs (GoError.wrapf m ErrNotFound) ErrNotFound = true := by
      simp [errorsIs, ErrNotFound]
    have h5 : errorsAsHTTP (GoError.wrapf m ErrNotFound) = none := by
      simp [errorsAsHTTP, ErrNotFound]
    simp [errorStatusAndErr, ErrorMap, h1, h2, h3, h4, h5]
  · intro err s inner has
    simp [errorStatusAndErr, has]
  · intro accept err params n hna hnx hfz
    unfold Error
    obtain ⟨w, args, hresp⟩ := hstruct accept
      (TreatError (errorStatusAndErr err).2)
      (params ++ [RParam.int (errorStatusAndErr err).1]) hna hnx
      (by simp [TreatError, kindOf])
    dsimp only
    rw [hresp, List.append_assoc]
    rw [responseStatus,
      blob_status_append w params _ n hfz]
  · intro accept err params hna hnx hfz hst
    unfold Error
    obtain ⟨w, args, hresp⟩ := hstruct accept
      (TreatError (errorStatusAndErr err).2)
      (params ++ [RParam.int (errorStatusAndErr err).1]) hna hnx
      (by simp [TreatError, kindOf])
    dsimp only
    rw [hresp, List.append_assoc]
    rw [responseStatus, blob_status,
      firstNonZeroInt_append_none _ _ hfz]
    simp [firstNonZeroInt, hst]
  · intro accept err params hct
    unfold Error
    dsimp only
    unfold DefaultResponder
    have hguard : (!isNil (TreatError (errorStatusAndErr err).2) &&
        kindOf (TreatError (errorStatusAndErr err).2) == GoKind.chan) = false := by
      simp [TreatError, isNil, kindOf]
    rw [hguard]
    dsimp only
    rw [hct]
    rw [responseStatus]
    have hnd := xmlEncode_errorResponse_no_decl
      (goErrorMessage (errorStatusAndErr err).2)
    simp [XML, TreatError, hnd]

/-- C6 witness: a fresh sentinel resolves to 500; a wrapped `ErrNotFound`
resolves to 404; `HTTPError` status 409 overrides; a caller status param
overrides the computed status end-to-end on the JSON path; and the XML path
renders 200 at a concrete error. -/
theorem error_status_resolution_witness :
    errorStatusAndErr (GoError.sentinel "boom") = (500, GoError.sentinel "boom") ∧
    errorStatusAndErr (GoError.wrapf "file demo.txt not found" ErrNotFound) =
      (404, GoError.wrapf "file demo.txt not found" ErrNotFound) ∧
    errorStatusAndErr (GoError.http 409 ErrNotFound) = (409, ErrNotFound) ∧
    responseStatus (Error "application/json" (GoError.sentinel "boom")
      [RParam.int 400]) = some 400 ∧
    responseStatus (Error "application/json"
      (GoError.wrapf "file demo.txt not found" ErrNotFound) []) = some 404 ∧
    responseStatus (Error "text/xml" (GoError.sentinel "boom") []) = some 200 :=
  ⟨error_status_resolution.1 (GoError.sentinel "boom") (by decide) (by decide),
   error_status_resolution.2.2.1 "file demo.txt not found",
   error_status_resolution.2.2.2.1 (GoError.http 409 ErrNotFound) 409 ErrNotFound
     (by decide),
   error_status_resolution.2.2.2.2.1 "application/json" (GoError.sentinel "boom")
     [RParam.int 400] 400 (by decide) (by decide) (by decide),
   by
     have h := error_status_resolution.2.2.2.2.2.1 "application/json"
       (GoError.wrapf "file demo.txt not found" ErrNotFound) [] (by decide)
       (by decide) (by decide) (by decide)
     rw [h]
     decide,
   error_status_resolution.2.2.2.2.2.2 "text/xml" (GoError.sentinel "boom") []
     (by decide)⟩

/-! ### C1 — redirect predicate and corrected location -/

theorem shouldRedirect_iff (p : Pagination) :
    p.shouldRedirect = true ↔ (p.page = 0 ∨ p.page > p.last ∨ p.perPage = 0) := by
  unfold Pagination.shouldRedirect
  split_ifs with h1 h2 h3
  · simp [h1]
  · simp [h2]
  · simp [h3]
  · simp [h1, h2, h3]

theorem totalPages_size_ne_zero (size total l : Int)
    (h : totalPages size total = some l) : size ≠ 0 := by
  intro h0
  rw [h0] at h
  simp [totalPages] at h

theorem applyOption_perPage_ne (p q : Pagination) (opt : PaginationOption)
    (h : applyOption p opt = some q) : q.perPage ≠ 0 := by
  cases opt with
  | withPerPage val =>
      simp only [applyOption, Option.map_eq_some'] at h
      obtain ⟨l, hl, hq⟩ := h
      have hval := totalPages_size_ne_zero val p.total l hl
      rw [← hq]
      simpa using hval

theorem foldlM_perPage_ne :
    ∀ (opts : List PaginationOption) (p q : Pagination), p.perPage ≠ 0 →
      List.foldlM applyOption p opts = some q → q.perPage ≠ 0
  | [], p, q, hp, h => by
      simp [List.foldlM] at h
      rw [← h]
      exact hp
  | opt :: rest, p, q, hp, h => by
      rw [List.foldlM_cons] at h
      cases happ : applyOption p opt with
      | none => rw [happ] at h; simp at h
      | some hd =>
          rw [happ] at h
          simp only [Option.bind_eq_bind, Option.some_bind] at h
          exact foldlM_perPage_ne rest hd q (applyOption_perPage_ne p hd opt happ) h

theorem newPagination_perPage_ne (u : GoURL) (total : Int)
    (opts : List PaginationOption) (p : Pagination)
    (h : NewPagination u total opts = some p) : p.perPage ≠ 0 := by
  unfold NewPagination at h
  dsimp only at h
  cases htp : totalPages ((goAtoi (valuesGet PerPageParam u.query)).getD PerPageDefault)
      total with
  | none => rw [htp] at h; simp at h
  | some lastVal =>
      rw [htp] at h
      simp only [Option.bind_eq_bind, Option.some_bind] at h
      exact foldlM_perPage_ne opts _ p
        (totalPages_size_ne_zero _ total lastVal htp) h

/-- C1 counterexample: for the reachable request `GET /users?per_page=-25`
with 60 items, `last = -1 < 1`, and `Render` 301-redirects to `page=-1` —
which is **not** `page` clamped into `[1, last]` (the claim's clamp would
give 1), so the claim fails as stated over all Pagination states. -/
theorem pagination_redirect_clamp_counterexample :
    NewPagination urlUsersNeg 60 [] = some pagUsersNeg ∧
    pagUsersNeg.Render urlUsersNeg =
      PRenderResult.redirect 301 "/users?page=-1&per_page=-25" ∧
    max 1 (min pagUsersNeg.page pagUsersNeg.last) ≠ -1 := by decide

/-- C1 amended: for every pagination state, `Render` 301-redirects instead
of rendering exactly when `page == 0`, `page > last` or `perPage == 0`; and
for every state built by `NewPagination` whose `last` is at least 1 (true
whenever `per_page` is positive and the total nonnegative), the redirect
target keeps the path, clamps `page` into `[1, last]`, substitutes the
default for a zero `perPage`, and preserves every other query parameter. -/
theorem pagination_render_redirect :
    (∀ (p : Pagination) (r : GoURL),
      isRedirect (p.Render r) = true ↔
        (p.page = 0 ∨ p.page > p.last ∨ p.perPage = 0)) ∧
    (∀ (u : GoURL) (total : Int) (opts : List PaginationOption)
        (p : Pagination) (r : GoURL),
      NewPagination u total opts = some p → 1 ≤ p.last →
      p.shouldRedirect = true →
      p.Render r = PRenderResult.redirect 301
          (GoURL.toString ⟨r.base, valuesSet PerPageParam
            (toString (if p.perPage = 0 then PerPageDefault else p.perPage))
            (valuesSet PageParam (toString (max 1 (min p.page p.last)))
              r.query)⟩) ∧
      (∀ k, k ≠ PageParam → k ≠ PerPageParam →
        valuesGet k (valuesSet PerPageParam
            (toString (if p.perPage = 0 then PerPageDefault else p.perPage))
            (valuesSet PageParam (toString (max 1 (min p.page p.last)))
              r.query)) =
          valuesGet k r.query)) ∧
    (NewPagination urlUsers60 60 [] = some pagUsers60 ∧
      pagUsers60.Render urlUsers60 =
        PRenderResult.redirect 301 "/users?page=3&per_page=20") := by
  refine ⟨?_, ?_, by decide⟩
  · intro p r
    unfold Pagination.Render
    by_cases hs : p.shouldRedirect
    · rw [if_pos hs]
      simpa [isRedirect] using (shouldRedirect_iff p).mp hs
    · rw [if_neg hs]
      rw [shouldRedirect_iff] at hs
      exact iff_of_false (by simp [isRedirect]) hs
  · intro u total opts p r hnew hlast hsr
    have hpp : p.perPage ≠ 0 := newPagination_perPage_ne u total opts p hnew
    have hpage : (if (if p.page = 0 then 1 else p.page) > p.last then p.last
        else if p.page = 0 then 1 else p.page) = max 1 (min p.page p.last) := by
      rcases (shouldRedirect_iff p).mp hsr with h | h | h
      · split_ifs <;> omega
      · split_ifs <;> omega
      · exact absurd h hpp
    constructor
    · unfold Pagination.Render
      rw [if_pos hsr]
      unfold Pagination.redirectLocation
      dsimp only
      rw [hpage]
    · intro k hk1 hk2
      rw [valuesGet_set_ne _ _ _ _ hk2, valuesGet_set_ne _ _ _ _ hk1]

/-- C1 witness: the amended statement applied at the claim's scenario
(`page=5&per_page=20`, total 60, last 3). -/
theorem pagination_render_redirect_witness :
    isRedirect (pagUsers60.Render urlUsers60) = true ∧
    pagUsers60.Render urlUsers60 =
      PRenderResult.redirect 301 "/users?page=3&per_page=20" ∧
    valuesGet "q" (valuesSet PerPageParam
        (toString (if pagUsers60.perPage = 0 then PerPageDefault
          else pagUsers60.perPage))
        (valuesSet PageParam
          (toString (max 1 (min pagUsers60.page pagUsers60.last)))
          urlUsers60.query)) = valuesGet "q" urlUsers60.query := by
  refine ⟨(pagination_render_redirect.1 pagUsers60 urlUsers60).mpr (by decide),
    ?_, ?_⟩
  · have h := (pagination_render_redirect.2.1 urlUsers60 60 [] pagUsers60
      urlUsers60 (by decide) (by decide) (by decide)).1
    rw [h]
    decide
  · exact (pagination_render_redirect.2.1 urlUsers60 60 [] pagUsers60
      urlUsers60 (by decide) (by decide) (by decide)).2 "q" (by decide) (by decide)

/-! ### C4 — pagination header emission -/

/-- C4: the header path always sets `x-page`, `x-per-page`, `x-total` and
`x-total-pages`; sets `x-next-page` and appends a `rel="next"` `Link` value
exactly when `page ≠ last`; sets `x-prev-page` and appends a `rel="prev"`
`Link` value exactly when `page > 1`; and always appends a `rel="last"`
`Link` value — the `Link` values accumulate instead of overwriting.
Concretely, for `page=1&per_page=20` against 100 items the headers are
`x-page:1, x-per-page:20, x-next-page:2, x-total:100, x-total-pages:5`,
with no `x-prev-page`. -/
theorem pagination_header_emission :
    (∀ p : Pagination,
      headerGet PageHeader (paginationHeaders p) = toString p.page ∧
      headerGet PerPageHeader (paginationHeaders p) = toString p.perPage ∧
      headerGet TotalItemsHeader (paginationHeaders p) = toString p.total ∧
      headerGet TotalPagesHeader (paginationHeaders p) = toString p.last ∧
      headerValues NextPageHeader (paginationHeaders p) =
        (if p.page ≠ p.last then [toString p.Next] else []) ∧
      headerValues PrevPageHeader (paginationHeaders p) =
        (if 1 < p.page then [toString p.Prev] else []) ∧
      (∃ un up ul, headerValues LinkHeader (paginationHeaders p) =
        (if p.page ≠ p.last then [Linkf un "next"] else []) ++
        (if 1 < p.page then [Linkf up "prev"] else []) ++ [Linkf ul "last"])) ∧
    (headerGet PageHeader (paginationHeaders pagLocalUsers) = "1" ∧
      headerGet PerPageHeader (paginationHeaders pagLocalUsers) = "20" ∧
      headerGet NextPageHeader (paginationHeaders pagLocalUsers) = "2" ∧
      headerGet TotalItemsHeader (paginationHeaders pagLocalUsers) = "100" ∧
      headerGet TotalPagesHeader (paginationHeaders pagLocalUsers) = "5" ∧
      headerValues PrevPageHeader (paginationHeaders pagLocalUsers) = []) := by
  constructor
  · intro p
    obtain ⟨u0, pg, pp, la, tot⟩ := p
    cases u0 with
    | none =>
        refine ⟨?_, ?_, ?_, ?_, ?_, ?_, ?_⟩ <;>
          by_cases h1 : pg ≠ la <;> by_cases h2 : 1 < pg <;>
          simp [paginationHeaders, DefaultPaginationHeader, Pagination.NextURL,
            Pagination.PrevURL, Pagination.LastURL, Pagination.Next,
            Pagination.Prev, h1, h2, headerValues_set_self, headerValues_set_ne,
            headerValues_add_self, headerValues_add_ne, headerGet, PageHeader,
            PerPageHeader, NextPageHeader, PrevPageHeader, TotalItemsHeader,
            TotalPagesHeader, LinkHeader, headerValues] <;>
          first
          | exact ⟨⟨_, rfl⟩, ⟨_, rfl⟩, ⟨_, rfl⟩⟩
          | exact ⟨⟨_, rfl⟩, ⟨_, rfl⟩⟩
          | exact ⟨_, rfl⟩
    | some u =>
        refine ⟨?_, ?_, ?_, ?_, ?_, ?_, ?_⟩ <;>
          by_cases h1 : pg ≠ la <;> by_cases h2 : 1 < pg <;>
          simp [paginationHeaders, DefaultPaginationHeader, Pagination.NextURL,
            Pagination.PrevURL, Pagination.LastURL, Pagination.Next,
            Pagination.Prev, h1, h2, headerValues_set_self, headerValues_set_ne,
            headerValues_add_self, headerValues_add_ne, headerGet, PageHeader,
            PerPageHeader, NextPageHeader, PrevPageHeader, TotalItemsHeader,
            TotalPagesHeader, LinkHeader, headerValues] <;>
          first
          | exact ⟨⟨_, rfl⟩, ⟨_, rfl⟩, ⟨_, rfl⟩⟩
          | exact ⟨⟨_, rfl⟩, ⟨_, rfl⟩⟩
          | exact ⟨_, rfl⟩
  · decide

end Render
